import Mathlib

/-!
# Verification of the AI content repurposer pipeline

A shallow embedding of the segment-importance pipeline from `app.py` and the
text-extraction gateway from `llm_utils.py`.  Python strings are modelled as
lists of characters (`PyStr`), so that every string primitive used by the
code (`strip`, `split`, `lower`, substring membership, concatenation,
`len`) is an executable Lean function amenable to induction.
-/

set_option autoImplicit false

namespace Repurposer

/-- Python strings, modelled as lists of characters. -/
abbrev PyStr := List Char

/-- Python `str.strip()`: remove leading and trailing whitespace. -/
def pyStrip (s : PyStr) : PyStr :=
  ((s.dropWhile Char.isWhitespace).reverse.dropWhile Char.isWhitespace).reverse

/-- Accumulator loop for `pySplitWs`; `cur` holds the current word reversed. -/
def splitWsAux : PyStr → PyStr → List PyStr
  | [], cur => if cur.isEmpty then [] else [cur.reverse]
  | c :: rest, cur =>
    if c.isWhitespace then
      if cur.isEmpty then splitWsAux rest [] else cur.reverse :: splitWsAux rest []
    else splitWsAux rest (c :: cur)

/-- Python `str.split()` with no argument: split on whitespace runs,
producing no empty words. -/
def pySplitWs (s : PyStr) : List PyStr := splitWsAux s []

/-- Python `str.lower()` (ASCII case folding, as used by the code's keywords). -/
def pyLower (s : PyStr) : PyStr := s.map Char.toLower

/-- Python `pat in s` for strings: `pat` occurs contiguously inside `s`. -/
def containsSub (pat : PyStr) : PyStr → Bool
  | [] => pat.isEmpty
  | c :: rest => pat.isPrefixOf (c :: rest) || containsSub pat rest

/-- The fixed signal vocabulary `IMPORTANT_KEYWORDS` from `app.py`. -/
def IMPORTANT_KEYWORDS : List PyStr :=
  ["step".toList, "important".toList, "remember".toList, "key".toList,
   "mistake".toList, "note".toList, "first".toList, "second".toList,
   "finally".toList, "example".toList, "diagram".toList, "chart".toList,
   "figure".toList]

/-- A timestamped transcript segment: the dict `{"text": .., "start": .., "end": ..}`
built from the transcription collaborator's output. Timestamps are opaque
time-offsets for the pipeline (only ever passed through), modelled as `Int`. -/
structure Segment where
  text : PyStr
  start : Int
  stop : Int
  deriving Repr, DecidableEq

/-- The body of `extract_important_segments`: iterate segments in order,
skip those whose trimmed text has fewer than 6 whitespace-separated words,
append (trimmed text + one space) to the buffer when any keyword occurs in
the lowercased text, and return the buffer as soon as its length reaches
`max_chars`. -/
def extract_important_segments_go (max_chars : Nat) : List Segment → PyStr → PyStr
  | [], text => text
  | s :: rest, text =>
    let t := pyStrip s.text
    if (pySplitWs t).length < 6 then
      extract_important_segments_go max_chars rest text
    else
      let text2 :=
        if IMPORTANT_KEYWORDS.any (fun k => containsSub k (pyLower t)) then
          text ++ t ++ [' ']
        else text
      if max_chars ≤ text2.length then text2
      else extract_important_segments_go max_chars rest text2

/-- The function `extract_important_segments(segments, max_chars)` from `app.py`
(the Importance Filter): run the loop on an empty buffer and strip the result. -/
def extract_important_segments (segments : List Segment) (max_chars : Nat) : PyStr :=
  pyStrip (extract_important_segments_go max_chars segments [])

/-- A trimmed segment text qualifies for the digest: at least 6 words and
some keyword occurs in its lowercase form. -/
def qualifiesText (t : PyStr) : Bool :=
  !((pySplitWs t).length < 6) && IMPORTANT_KEYWORDS.any (fun k => containsSub k (pyLower t))

/-- The trimmed texts of the qualifying segments, in input order. -/
def qualifyingTexts (segments : List Segment) : List PyStr :=
  (segments.map (fun s => pyStrip s.text)).filter qualifiesText

/-- The running buffer built from a list of included texts: each text
followed by one space, in order. -/
def joinBuf (ts : List PyStr) : PyStr :=
  ts.foldr (fun t acc => t ++ ' ' :: acc) []

/-- Space-joined concatenation of texts (the spec's description of the digest):
texts separated by single spaces, no trailing separator. -/
def spaceJoin : List PyStr → PyStr
  | [] => []
  | [t] => t
  | t :: rest => t ++ ' ' :: spaceJoin rest

/-- Length of the running buffer that a list of included texts produces
(each text contributes its length plus one separator space). -/
def bufLen (ts : List PyStr) : Nat :=
  (ts.map (fun t => t.length + 1)).sum

/-- The number of leading texts whose cumulative buffer length first reaches
or exceeds `max_chars` (all of them when the budget is never reached). -/
def cutoffN (max_chars : Nat) : List PyStr → Nat
  | [] => 0
  | t :: rest =>
    if max_chars = 0 then 0
    else if max_chars ≤ t.length + 1 then 1
    else 1 + cutoffN (max_chars - (t.length + 1)) rest

/-- A text that is nonempty and has no leading or trailing whitespace
(as every trimmed qualifying segment text does). -/
def cleanText (t : PyStr) : Prop :=
  t ≠ [] ∧ (∀ c ∈ t.head?, c.isWhitespace = false) ∧ (∀ c ∈ t.getLast?, c.isWhitespace = false)

/-- The Importance Filter loop restricted to the stream of qualifying trimmed
texts (legitimate whenever the buffer is still below the budget, since
non-qualifying segments then leave both buffer and control flow unchanged). -/
def goQ (mc : Nat) : List PyStr → PyStr → PyStr
  | [], text => text
  | t :: rest, text =>
    let text2 := text ++ t ++ [' ']
    if mc ≤ text2.length then text2 else goQ mc rest text2

/-- One more than the longest qualifying trimmed text (0 when none):
the worst single-step growth of the running buffer. -/
def maxq (segs : List Segment) : Nat :=
  ((qualifyingTexts segs).map (fun t => t.length + 1)).foldr max 0

/-! ## Frame extraction (`extract_frame`, `extract_key_frames`) -/

/-- A key frame dict `{"path": .., "text": .., "start": ..}`. -/
structure Frame where
  path : PyStr
  text : PyStr
  start : Int
  deriving Repr, DecidableEq

/-- The keyword test used by the Frame Selector: any vocabulary term occurs in
the lowercased raw text (no trimming, no minimum word count). -/
def kwMatch (t : PyStr) : Bool :=
  IMPORTANT_KEYWORDS.any (fun k => containsSub k (pyLower t))

/-- The f-string `f"frame_\x7bi\x7d.jpg"`. -/
def framePath (i : Nat) : PyStr :=
  "frame_".toList ++ (Nat.repr i).toList ++ ".jpg".toList

/-- The function `extract_frame` from `app.py`: one call to the external frame-grab
collaborator (the ffmpeg subprocess) with stdout/stderr suppressed and the
exit status unchecked; the collaborator's success flag is returned to nobody
and no exception escapes. -/
def extract_frame (grab : PyStr → Int → PyStr → Bool) (video_path : PyStr)
    (timestamp : Int) (out_path : PyStr) : Bool :=
  grab video_path timestamp out_path

/-- The loop of `extract_key_frames`; `i` is the `enumerate` index. -/
def extract_key_frames_go (grab : PyStr → Int → PyStr → Bool) (video_path : PyStr)
    (max_frames : Nat) : Nat → List Segment → List Frame → List Frame
  | _, [], frames => frames
  | i, s :: rest, frames =>
    let frames2 :=
      if kwMatch s.text = true then
        let frame_path := framePath i
        let _ := extract_frame grab video_path s.start frame_path
        frames ++ [⟨frame_path, s.text, s.start⟩]
      else frames
    if max_frames ≤ frames2.length then frames2
    else extract_key_frames_go grab video_path max_frames (i + 1) rest frames2

/-- The function `extract_key_frames(segments, video_path, max_frames)` from `app.py`. -/
def extract_key_frames (grab : PyStr → Int → PyStr → Bool) (segments : List Segment)
    (video_path : PyStr) (max_frames : Nat) : List Frame :=
  extract_key_frames_go grab video_path max_frames 0 segments []

/-- All keyword-matching segments rendered as frames, in segment order,
starting at enumeration index `i` (the unbounded frame stream). -/
def allKeyFrames : Nat → List Segment → List Frame
  | _, [] => []
  | i, s :: rest =>
    if kwMatch s.text = true then
      ⟨framePath i, s.text, s.start⟩ :: allKeyFrames (i + 1) rest
    else allKeyFrames (i + 1) rest

/-! ## Enrichment Gateway (`llm_utils.generate_text`) -/

/-- An entry of the backend's structured `output` list. -/
structure RespItem where
  type : PyStr
  text : PyStr
  deriving Repr, DecidableEq

/-- The backend response object: the primary `output_text` attribute
(`none` models a missing attribute) and the structured fallback list. -/
structure Response where
  output_text : Option PyStr
  output : List RespItem
  deriving Repr, DecidableEq

/-- The item-type tag `"output_text"` scanned for by the fallback loop. -/
def OUTPUT_TEXT_TYPE : PyStr := "output_text".toList

/-- The fallback scan of `generate_text`: the first `"output_text"`-typed
entry's stripped text, or the empty string when none exists. -/
def generate_text_fallback : List RespItem → PyStr
  | [] => []
  | item :: rest =>
    if item.type = OUTPUT_TEXT_TYPE then pyStrip item.text
    else generate_text_fallback rest

/-- The function `generate_text` from `llm_utils.py`, applied to the backend response:
return the stripped primary field when it is present and truthy, otherwise
scan the fallback list, otherwise return the empty string. -/
def generate_text (response : Response) : PyStr :=
  match response.output_text with
  | some s => if s.isEmpty = true then generate_text_fallback response.output else pyStrip s
  | none => generate_text_fallback response.output

/-! ## Prompt templates (`prompts.py`) -/

def refined_transcript_prompt (text : PyStr) : PyStr :=
  "\nYou are an expert educator and thinker.\n\nExtract only what truly matters.\n\nRULES:\n- No introductions or conclusions\n- No mention of videos, transcripts, or speakers\n- Focus on implications, not explanations\n- Write 5–7 short paragraphs\n- Each paragraph should change how the reader thinks or acts\n\nContent:\n".toList
    ++ text ++ "\n".toList

def key_takeaways_prompt (text : PyStr) : PyStr :=
  "\nExtract exactly 3–4 key insights.\n\nRULES:\n- One sentence per insight\n- Each must explain why it matters\n- Clear, concise, non-academic\n\nContent:\n".toList
    ++ text ++ "\n".toList

def mistakes_prompt (text : PyStr) : PyStr :=
  "\nList exactly 3 common mistakes people make related to this topic.\n\nRULES:\n- Practical, real-world mistakes\n- Clear language\n- No academic tone\n\nContent:\n".toList
    ++ text ++ "\n".toList

def application_prompt (text : PyStr) : PyStr :=
  "\nConvert the core idea into practical behavior.\n\nRULES:\n- 2–3 sentences only\n- Focus on what to do differently\n- Actionable, not motivational\n\nContent:\n".toList
    ++ text ++ "\n".toList

def twitter_prompt (text : PyStr) : PyStr :=
  "\nYou are an experienced professional sharing insight.\n\nCreate a Twitter/X thread.\n\nRULES:\n- 5–6 tweets\n- Each tweet under 25 words\n- No emojis, no hashtags\n- Clear, confident, experienced tone\n- First tweet highlights a common mistake or insight\n- Final tweet delivers a strong takeaway\n\nContent:\n".toList
    ++ text ++ "\n".toList

def linkedin_prompt (text : PyStr) : PyStr :=
  "\nYou are writing a thoughtful LinkedIn post.\n\nRULES:\n- Calm, professional tone\n- Short paragraphs\n- One central idea\n- End with a practical insight\n- No emojis or hashtags\n\nContent:\n".toList
    ++ text ++ "\n".toList

def reel_prompt (text : PyStr) : PyStr :=
  "\nGenerate exactly 3 short hooks for reels or shorts.\n\nRULES:\n- Under 10 words each\n- Highlight a mistake, cost, or surprising insight\n- Direct language\n- No emojis, no punctuation\n\nContent:\n".toList
    ++ text ++ "\n".toList

/-! ## Session state and the Analyze pipeline (`app.py` UI handlers) -/

/-- The record `st.session_state`: every key of `SESSION_KEYS`, each
initialized to `None` by `setdefault`. -/
structure Session where
  segments : Option (List Segment)
  raw_transcript : Option PyStr
  refined_transcript : Option PyStr
  frames : Option (List Frame)
  takeaways : Option PyStr
  mistakes : Option PyStr
  application : Option PyStr
  twitter_content : Option PyStr
  linkedin_content : Option PyStr
  reel_content : Option PyStr
  deriving Repr, DecidableEq

/-- The initial session: every key `None`. -/
def emptySession : Session :=
  ⟨none, none, none, none, none, none, none, none, none, none⟩

/-- An opaque exception raised by an external collaborator. -/
structure PyErr where
  msg : PyStr
  deriving Repr, DecidableEq

/-- The external collaborators the pipeline calls, as oracles:
the YouTube audio downloader, the Whisper transcriber, the ffmpeg frame
grabber (success flag only), the temp-file writer for uploads, and the
text-generation backend (`client.responses.create`). -/
structure Collab where
  download_audio : PyStr → Except PyErr PyStr
  transcribe : PyStr → Except PyErr (List Segment)
  grab : PyStr → Int → PyStr → Bool
  save_upload : PyStr → PyStr
  create : PyStr → Except PyErr Response

/-- A submitted source: a YouTube link or an uploaded file (by name). -/
inductive Source where
  | youtube (url : PyStr)
  | upload (name : PyStr)
  deriving Repr, DecidableEq

/-- The upload extensions treated as video. -/
def VIDEO_EXTS : List PyStr := [".mp4".toList, ".mov".toList, ".mkv".toList]

/-- Python `os.path.splitext(name)[1]`: the extension from the last dot on
(empty when the name has no dot; leading-dot basenames are not modelled). -/
def splitext_ext (name : PyStr) : PyStr :=
  if '.' ∈ name then '.' :: (name.reverse.takeWhile (fun c => c ≠ '.')).reverse
  else []

/-- The source-acquisition phase of the Analyze handler: an upload is written
to a temp file and classified as video by its lowercased extension; a YouTube
link goes through the audio downloader (which may raise) and never yields a
video path.  Returns `(audio_path, video_path?)`. -/
def acquire (c : Collab) : Source → Except PyErr (PyStr × Option PyStr)
  | .upload name =>
    let file_path := c.save_upload name
    let suffix := splitext_ext name
    if pyLower suffix ∈ VIDEO_EXTS then .ok (file_path, some file_path)
    else .ok (file_path, none)
  | .youtube url =>
    match c.download_audio url with
    | .ok audio_path => .ok (audio_path, none)
    | .error e => .error e

/-- One run of the Analyze button handler (`app.py`): acquire the source,
transcribe, store segments, store the digest, store frames (empty unless a
video upload), then store the refined transcript.  Each `st.session_state`
assignment persists once executed; a collaborator exception aborts the rest
of the run (the `except` arm only reports, the session keeps whatever was
already committed). -/
def analyze (c : Collab) (src : Source) (max_frames : Nat) (st0 : Session) : Session :=
  match acquire c src with
  | .error _ => st0
  | .ok (audio_path, video_path) =>
    match c.transcribe audio_path with
    | .error _ => st0
    | .ok segment_data =>
      let st1 : Session := { st0 with segments := some segment_data }
      let important_text := extract_important_segments segment_data 3000
      let st2 : Session := { st1 with raw_transcript := some important_text }
      let st3 : Session :=
        match video_path with
        | some vp =>
          { st2 with frames := some (extract_key_frames c.grab segment_data vp max_frames) }
        | none => { st2 with frames := some [] }
      match c.create (refined_transcript_prompt important_text) with
      | .error _ => st3
      | .ok resp => { st3 with refined_transcript := some (generate_text resp) }

/-! ## Enrichment and social content triggers -/

/-- The six secondary buttons. -/
inductive Trigger where
  | takeaways
  | mistakes
  | application
  | twitter
  | linkedin
  | reel
  deriving Repr, DecidableEq

/-- The prompt template each trigger feeds the refined transcript into. -/
def triggerPrompt : Trigger → PyStr → PyStr
  | .takeaways => key_takeaways_prompt
  | .mistakes => mistakes_prompt
  | .application => application_prompt
  | .twitter => twitter_prompt
  | .linkedin => linkedin_prompt
  | .reel => reel_prompt

/-- The session slot each trigger owns. -/
def slotVal : Trigger → Session → Option PyStr
  | .takeaways, st => st.takeaways
  | .mistakes, st => st.mistakes
  | .application, st => st.application
  | .twitter, st => st.twitter_content
  | .linkedin, st => st.linkedin_content
  | .reel, st => st.reel_content

/-- Writing a trigger's own slot. -/
def setSlot : Trigger → Option PyStr → Session → Session
  | .takeaways, v, st => { st with takeaways := v }
  | .mistakes, v, st => { st with mistakes := v }
  | .application, v, st => { st with application := v }
  | .twitter, v, st => { st with twitter_content := v }
  | .linkedin, v, st => { st with linkedin_content := v }
  | .reel, v, st => { st with reel_content := v }

/-- One enrichment/social button press: the button exists only under
`if st.session_state.refined_transcript:` (Python truthiness, so a missing or
empty refined transcript renders no button and nothing runs); on click it
recomputes and overwrites exactly its own slot.  A backend exception leaves
the session unchanged. -/
def runTrigger (c : Collab) (tr : Trigger) (st : Session) : Session :=
  match st.refined_transcript with
  | none => st
  | some r =>
    if r.isEmpty = true then st
    else
      match c.create (triggerPrompt tr r) with
      | .error _ => st
      | .ok resp => setSlot tr (some (generate_text resp)) st

/-- The frames committed by a run: the Frame Selector's output for a video
path, the empty list otherwise. -/
def framesFor (c : Collab) (segs : List Segment) (vp : Option PyStr) (mf : Nat) : List Frame :=
  match vp with
  | some v => extract_key_frames c.grab segs v mf
  | none => []

/-- A source with no video track: a remote link, or an upload whose extension
is not a video extension. -/
def nonVideoSource : Source → Bool
  | .youtube _ => true
  | .upload name => !(pyLower (splitext_ext name) ∈ VIDEO_EXTS)

/-! ## Concrete sample inputs used by witnesses and counterexamples -/

/-- A qualifying segment: 6 words, contains "important", trimmed length 32. -/
def sampleQual : Segment := ⟨"one two three important five six".toList, 0, 1⟩

/-- A qualifying segment longer than small budgets (44 characters). -/
def sampleLong : Segment := ⟨"this is a very important example of overflow".toList, 0, 1⟩

/-- Six words but no vocabulary keyword: filtered out by the keyword test. -/
def sampleNoKw : Segment := ⟨"nothing matching there at all today".toList, 1, 2⟩

/-- Two words containing keywords: dropped by the Importance Filter's word
count, yet matched by the Frame Selector. -/
def sampleShort : Segment := ⟨"important step".toList, 5, 9⟩

/-- A backend response whose primary field has surrounding whitespace. -/
def respPad : Response := ⟨some " hi ".toList, []⟩

/-- A plain successful backend response. -/
def respOk : Response := ⟨some "generated".toList, []⟩

/-- A text-typed fallback entry with surrounding whitespace. -/
def itemA : RespItem := ⟨"output_text".toList, " fb ".toList⟩

/-- Collaborators that all succeed, with a fixed backend response. -/
def cOk : Collab :=
  ⟨fun _ => Except.ok "audio.mp3".toList, fun _ => Except.ok [sampleQual],
   fun _ _ _ => true, fun _ => "tmp1".toList, fun _ => Except.ok respOk⟩

/-- Collaborators whose text-generation backend raises. -/
def cGenFail : Collab :=
  ⟨fun _ => Except.ok "audio.mp3".toList, fun _ => Except.ok [sampleQual],
   fun _ _ _ => true, fun _ => "tmp1".toList, fun _ => Except.error ⟨"boom".toList⟩⟩

/-- Collaborators whose downloader raises (restricted remote link). -/
def cAcqFail : Collab :=
  ⟨fun _ => Except.error ⟨"restricted".toList⟩, fun _ => Except.ok [sampleQual],
   fun _ _ _ => true, fun _ => "tmp1".toList, fun _ => Except.ok respOk⟩

/-- A session whose refined transcript is populated. -/
def stRefined : Session :=
  ⟨none, none, some "refined text".toList, none, none, none, none, none, none, none⟩

/-! ## Generic list lemmas about dropWhile -/

section DropWhile

variable {α : Type} (p : α → Bool)

theorem length_dropWhile_le (l : List α) : (l.dropWhile p).length ≤ l.length := by
  induction l with
  | nil => simp [List.dropWhile]
  | cons c rest ih =>
    rw [List.dropWhile_cons]
    by_cases h : p c = true
    · rw [if_pos h]; exact ih.trans (Nat.le_succ _)
    · rw [if_neg h]

theorem dropWhile_head?_false (l : List α) : ∀ c ∈ (l.dropWhile p).head?, p c = false := by
  induction l with
  | nil => intro c hc; simp [List.dropWhile] at hc
  | cons a rest ih =>
    intro c hc
    rw [List.dropWhile_cons] at hc
    by_cases h : p a = true
    · rw [if_pos h] at hc; exact ih c hc
    · rw [if_neg h] at hc
      have ha : a = c := by simpa using hc
      subst ha
      simpa using h

theorem dropWhile_getLast?_eq (l : List α) (h : l.dropWhile p ≠ []) :
    (l.dropWhile p).getLast? = l.getLast? := by
  induction l with
  | nil => simp [List.dropWhile] at h
  | cons a rest ih =>
    rw [List.dropWhile_cons] at h ⊢
    by_cases hp : p a = true
    · rw [if_pos hp] at h ⊢
      cases rest with
      | nil => simp [List.dropWhile] at h
      | cons b bs => rw [ih h, List.getLast?_cons_cons]
    · rw [if_neg hp]

theorem dropWhile_eq_self_of_head? (l : List α) (h : ∀ c ∈ l.head?, p c = false) :
    l.dropWhile p = l := by
  cases l with
  | nil => rfl
  | cons a rest => rw [List.dropWhile_cons, if_neg (by simp [h a rfl])]

end DropWhile

/-! ## Lemmas about pyStrip -/

theorem pyStrip_eq_self {t : PyStr} (h1 : ∀ c ∈ t.head?, c.isWhitespace = false)
    (h2 : ∀ c ∈ t.getLast?, c.isWhitespace = false) : pyStrip t = t := by
  unfold pyStrip
  rw [dropWhile_eq_self_of_head? _ t h1]
  rw [dropWhile_eq_self_of_head? _ t.reverse
    (by intro c hc; rw [List.head?_reverse] at hc; exact h2 c hc)]
  exact List.reverse_reverse t

theorem pyStrip_head?_ws {s : PyStr} : ∀ c ∈ (pyStrip s).head?, c.isWhitespace = false := by
  intro c hc
  unfold pyStrip at hc
  rw [List.head?_reverse] at hc
  by_cases hB : (s.dropWhile Char.isWhitespace).reverse.dropWhile Char.isWhitespace = []
  · rw [hB] at hc; simp at hc
  · rw [dropWhile_getLast?_eq _ _ hB, List.getLast?_reverse] at hc
    exact dropWhile_head?_false _ s c hc

theorem pyStrip_getLast?_ws {s : PyStr} : ∀ c ∈ (pyStrip s).getLast?, c.isWhitespace = false := by
  intro c hc
  unfold pyStrip at hc
  rw [List.getLast?_reverse] at hc
  exact dropWhile_head?_false _ _ c hc

theorem pyStrip_idem (s : PyStr) : pyStrip (pyStrip s) = pyStrip s :=
  pyStrip_eq_self pyStrip_head?_ws pyStrip_getLast?_ws

theorem pyStrip_append_space (xs : PyStr) : pyStrip (xs ++ [' ']) = pyStrip xs := by
  unfold pyStrip
  rw [List.dropWhile_append]
  by_cases h : (xs.dropWhile Char.isWhitespace).isEmpty = true
  · rw [if_pos h]
    have h2 : xs.dropWhile Char.isWhitespace = [] := by simpa using h
    rw [h2]
    rfl
  · rw [if_neg h, List.reverse_append]
    have : ([' '] : PyStr).reverse = [' '] := rfl
    rw [this]
    rw [show (([' '] : PyStr) ++ (xs.dropWhile Char.isWhitespace).reverse) =
      ' ' :: (xs.dropWhile Char.isWhitespace).reverse from rfl]
    rw [List.dropWhile_cons, if_pos (by decide)]

theorem pyStrip_length_le (s : PyStr) : (pyStrip s).length ≤ s.length := by
  unfold pyStrip
  rw [List.length_reverse]
  calc ((s.dropWhile Char.isWhitespace).reverse.dropWhile Char.isWhitespace).length
      ≤ (s.dropWhile Char.isWhitespace).reverse.length := length_dropWhile_le _ _
    _ = (s.dropWhile Char.isWhitespace).length := List.length_reverse _
    _ ≤ s.length := length_dropWhile_le _ _

/-! ## Lemmas about joinBuf and spaceJoin -/


theorem head?_append_left {α : Type} (t l : List α) (h : t ≠ []) : (t ++ l).head? = t.head? := by
  cases t with
  | nil => exact absurd rfl h
  | cons a as => rfl

theorem getLast?_cons_of_ne {α : Type} (a : α) (l : List α) (h : l ≠ []) :
    (a :: l).getLast? = l.getLast? := by
  cases l with
  | nil => exact absurd rfl h
  | cons b bs => exact List.getLast?_cons_cons

theorem getLast?_append_right {α : Type} (t l : List α) (h : l ≠ []) :
    (t ++ l).getLast? = l.getLast? := by
  rw [List.getLast?_append]
  obtain ⟨x, hx⟩ := Option.isSome_iff_exists.mp (List.getLast?_isSome.mpr h)
  rw [hx]
  rfl

theorem spaceJoin_cons (t : PyStr) (rest : List PyStr) (h : rest ≠ []) :
    spaceJoin (t :: rest) = t ++ ' ' :: spaceJoin rest := by
  cases rest with
  | nil => exact absurd rfl h
  | cons u us => rfl

theorem spaceJoin_ne_nil (ts : List PyStr) (hts : ts ≠ []) (h : ∀ t ∈ ts, t ≠ []) :
    spaceJoin ts ≠ [] := by
  cases ts with
  | nil => exact absurd rfl hts
  | cons t rest =>
    cases rest with
    | nil => exact h t (by simp)
    | cons u us =>
      rw [spaceJoin_cons _ _ (by simp)]
      simp

theorem joinBuf_cons (t : PyStr) (ts : List PyStr) :
    joinBuf (t :: ts) = t ++ ' ' :: joinBuf ts := rfl

theorem joinBuf_append (xs ys : List PyStr) : joinBuf (xs ++ ys) = joinBuf xs ++ joinBuf ys := by
  induction xs with
  | nil => rfl
  | cons t rest ih => simp [joinBuf_cons, ih]

theorem joinBuf_eq_spaceJoin (ts : List PyStr) (h : ts ≠ []) :
    joinBuf ts = spaceJoin ts ++ [' '] := by
  induction ts with
  | nil => exact absurd rfl h
  | cons t rest ih =>
    cases rest with
    | nil => rfl
    | cons u us =>
      rw [joinBuf_cons, ih (by simp), spaceJoin_cons t (u :: us) (by simp)]
      simp

theorem spaceJoin_head?_ws (ts : List PyStr) (h : ∀ t ∈ ts, cleanText t) :
    ∀ c ∈ (spaceJoin ts).head?, c.isWhitespace = false := by
  cases ts with
  | nil => intro c hc; simp [spaceJoin] at hc
  | cons t rest =>
    intro c hc
    have ht := h t (by simp)
    cases rest with
    | nil => exact ht.2.1 c hc
    | cons u us =>
      rw [spaceJoin_cons _ _ (by simp), head?_append_left _ _ ht.1] at hc
      exact ht.2.1 c hc

theorem spaceJoin_getLast?_ws (ts : List PyStr) (h : ∀ t ∈ ts, cleanText t) :
    ∀ c ∈ (spaceJoin ts).getLast?, c.isWhitespace = false := by
  induction ts with
  | nil => intro c hc; simp [spaceJoin] at hc
  | cons t rest ih =>
    intro c hc
    cases rest with
    | nil => exact (h t (by simp)).2.2 c hc
    | cons u us =>
      rw [spaceJoin_cons _ _ (by simp)] at hc
      have hne : spaceJoin (u :: us) ≠ [] :=
        spaceJoin_ne_nil _ (by simp) (fun x hx => (h x (List.mem_cons_of_mem t hx)).1)
      rw [getLast?_append_right _ _ (by simp), getLast?_cons_of_ne _ _ hne] at hc
      exact ih (fun x hx => h x (List.mem_cons_of_mem t hx)) c hc

theorem pyStrip_joinBuf (ts : List PyStr) (h : ∀ t ∈ ts, cleanText t) :
    pyStrip (joinBuf ts) = spaceJoin ts := by
  cases ts with
  | nil => rfl
  | cons t rest =>
    rw [joinBuf_eq_spaceJoin _ (by simp), pyStrip_append_space]
    exact pyStrip_eq_self (spaceJoin_head?_ws _ h) (spaceJoin_getLast?_ws _ h)

theorem qualifiesText_ne_nil {t : PyStr} (h : qualifiesText t = true) : t ≠ [] := by
  intro he
  subst he
  have : qualifiesText ([] : PyStr) = false := by decide
  rw [this] at h
  exact absurd h (by simp)

theorem mem_qualifyingTexts {segments : List Segment} {t : PyStr}
    (ht : t ∈ qualifyingTexts segments) : cleanText t := by
  unfold qualifyingTexts at ht
  obtain ⟨hmem, hq⟩ := List.mem_filter.mp ht
  obtain ⟨s, hs, rfl⟩ := List.mem_map.mp hmem
  exact ⟨qualifiesText_ne_nil hq, fun c hc => pyStrip_head?_ws c hc,
    fun c hc => pyStrip_getLast?_ws c hc⟩

/-! ## Step equations and characterization of the Importance Filter loop -/

theorem qualifyingTexts_cons (s : Segment) (rest : List Segment) :
    qualifyingTexts (s :: rest) =
      if qualifiesText (pyStrip s.text) = true then pyStrip s.text :: qualifyingTexts rest
      else qualifyingTexts rest := by
  simp [qualifyingTexts, List.filter_cons]

theorem qualifyingTexts_append (xs ys : List Segment) :
    qualifyingTexts (xs ++ ys) = qualifyingTexts xs ++ qualifyingTexts ys := by
  simp [qualifyingTexts, List.filter_append]

theorem go_nil (mc : Nat) (text : PyStr) :
    extract_important_segments_go mc [] text = text := rfl

theorem go_cons_skip (mc : Nat) (s : Segment) (rest : List Segment) (text : PyStr)
    (h : (pySplitWs (pyStrip s.text)).length < 6) :
    extract_important_segments_go mc (s :: rest) text =
      extract_important_segments_go mc rest text := by
  simp only [extract_important_segments_go]
  rw [if_pos h]

theorem go_cons_noqual (mc : Nat) (s : Segment) (rest : List Segment) (text : PyStr)
    (h6 : ¬ (pySplitWs (pyStrip s.text)).length < 6)
    (hk : IMPORTANT_KEYWORDS.any (fun k => containsSub k (pyLower (pyStrip s.text))) = false) :
    extract_important_segments_go mc (s :: rest) text =
      if mc ≤ text.length then text else extract_important_segments_go mc rest text := by
  simp only [extract_important_segments_go]
  rw [if_neg h6, hk]
  simp

theorem go_cons_qual (mc : Nat) (s : Segment) (rest : List Segment) (text : PyStr)
    (h6 : ¬ (pySplitWs (pyStrip s.text)).length < 6)
    (hk : IMPORTANT_KEYWORDS.any (fun k => containsSub k (pyLower (pyStrip s.text))) = true) :
    extract_important_segments_go mc (s :: rest) text =
      if mc ≤ (text ++ pyStrip s.text ++ [' ']).length then text ++ pyStrip s.text ++ [' ']
      else extract_important_segments_go mc rest (text ++ pyStrip s.text ++ [' ']) := by
  simp only [extract_important_segments_go]
  rw [if_neg h6, hk]
  simp

theorem joinBuf_nil : joinBuf [] = [] := rfl

theorem joinBuf_snoc (acc : List PyStr) (t : PyStr) :
    joinBuf (acc ++ [t]) = joinBuf acc ++ t ++ [' '] := by
  rw [joinBuf_append]
  simp [joinBuf_cons, joinBuf_nil]

/-- The running buffer of the Importance Filter loop is always the buffer of
some prefix of the qualifying trimmed texts. -/
theorem go_joinBuf (mc : Nat) : ∀ (segs : List Segment) (acc : List PyStr),
    ∃ n, extract_important_segments_go mc segs (joinBuf acc) =
      joinBuf (acc ++ (qualifyingTexts segs).take n) := by
  intro segs
  induction segs with
  | nil => intro acc; exact ⟨0, by simp [go_nil]⟩
  | cons s rest ih =>
    intro acc
    by_cases h6 : (pySplitWs (pyStrip s.text)).length < 6
    · obtain ⟨n, hn⟩ := ih acc
      refine ⟨n, ?_⟩
      rw [go_cons_skip _ _ _ _ h6, hn, qualifyingTexts_cons,
        if_neg (by simp [qualifiesText, h6])]
    · by_cases hk : IMPORTANT_KEYWORDS.any
          (fun k => containsSub k (pyLower (pyStrip s.text))) = true
      · have hq : qualifiesText (pyStrip s.text) = true := by
          simp [qualifiesText, h6, hk]
        rw [qualifyingTexts_cons, if_pos hq]
        by_cases hbr : mc ≤ (joinBuf acc ++ pyStrip s.text ++ [' ']).length
        · refine ⟨1, ?_⟩
          rw [go_cons_qual _ _ _ _ h6 hk, if_pos hbr]
          rw [show ((pyStrip s.text :: qualifyingTexts rest).take 1) = [pyStrip s.text] by simp]
          rw [joinBuf_snoc]
        · obtain ⟨n, hn⟩ := ih (acc ++ [pyStrip s.text])
          refine ⟨n + 1, ?_⟩
          rw [go_cons_qual _ _ _ _ h6 hk, if_neg hbr, ← joinBuf_snoc, hn]
          congr 1
          simp [List.take_succ_cons]
      · rw [qualifyingTexts_cons, if_neg (by simp [qualifiesText, hk])]
        rw [go_cons_noqual _ _ _ _ h6 (by simpa using hk)]
        by_cases hbr : mc ≤ (joinBuf acc).length
        · exact ⟨0, by rw [if_pos hbr]; simp⟩
        · obtain ⟨n, hn⟩ := ih acc
          exact ⟨n, by rw [if_neg hbr]; exact hn⟩

/-- The digest is always the space-join of some prefix of the qualifying
trimmed texts: truncation always falls on a whole-segment boundary. -/
theorem extract_eq_spaceJoin_take (segs : List Segment) (mc : Nat) :
    ∃ n, extract_important_segments segs mc =
      spaceJoin ((qualifyingTexts segs).take n) := by
  obtain ⟨n, hn⟩ := go_joinBuf mc segs []
  refine ⟨n, ?_⟩
  unfold extract_important_segments
  rw [show ([] : PyStr) = joinBuf [] from rfl, hn]
  simp only [List.nil_append]
  exact pyStrip_joinBuf _ (fun t ht => mem_qualifyingTexts ((List.take_sublist n _).subset ht))

/-! ## Exact cutoff characterization (positive character budget) -/


theorem goQ_nil (mc : Nat) (text : PyStr) : goQ mc [] text = text := rfl

theorem goQ_cons (mc : Nat) (t : PyStr) (rest : List PyStr) (text : PyStr) :
    goQ mc (t :: rest) text =
      if mc ≤ (text ++ t ++ [' ']).length then text ++ t ++ [' ']
      else goQ mc rest (text ++ t ++ [' ']) := by
  simp only [goQ]

theorem bufLen_nil : bufLen [] = 0 := rfl

theorem bufLen_cons (t : PyStr) (ts : List PyStr) :
    bufLen (t :: ts) = (t.length + 1) + bufLen ts := by
  simp [bufLen]

theorem go_eq_goQ (mc : Nat) : ∀ (segs : List Segment) (text : PyStr), text.length < mc →
    extract_important_segments_go mc segs text = goQ mc (qualifyingTexts segs) text := by
  intro segs
  induction segs with
  | nil => intro text _; rfl
  | cons s rest ih =>
    intro text h
    by_cases h6 : (pySplitWs (pyStrip s.text)).length < 6
    · rw [go_cons_skip _ _ _ _ h6, qualifyingTexts_cons,
        if_neg (by simp [qualifiesText, h6]), ih text h]
    · by_cases hk : IMPORTANT_KEYWORDS.any
          (fun k => containsSub k (pyLower (pyStrip s.text))) = true
      · have hq : qualifiesText (pyStrip s.text) = true := by
          simp [qualifiesText, h6, hk]
        rw [go_cons_qual _ _ _ _ h6 hk, qualifyingTexts_cons, if_pos hq, goQ_cons]
        by_cases hbr : mc ≤ (text ++ pyStrip s.text ++ [' ']).length
        · rw [if_pos hbr, if_pos hbr]
        · rw [if_neg hbr, if_neg hbr, ih _ (Nat.not_le.mp hbr)]
      · rw [go_cons_noqual _ _ _ _ h6 (by simpa using hk),
          if_neg (Nat.not_le.mpr h), qualifyingTexts_cons,
          if_neg (by simp [qualifiesText, hk]), ih text h]

theorem goQ_spec (mc : Nat) : ∀ (ts : List PyStr) (text : PyStr), text.length < mc →
    goQ mc ts text = text ++ joinBuf (ts.take (cutoffN (mc - text.length) ts)) := by
  intro ts
  induction ts with
  | nil => intro text _; simp [goQ_nil, joinBuf_nil]
  | cons t rest ih =>
    intro text h
    rw [goQ_cons]
    have hmc0 : ¬ (mc - text.length = 0) := by omega
    have hlen2 : (text ++ t ++ [' ']).length = text.length + t.length + 1 := by
      simp [List.length_append]
      omega
    by_cases hbr : mc ≤ (text ++ t ++ [' ']).length
    · rw [if_pos hbr]
      have hc : cutoffN (mc - text.length) (t :: rest) = 1 := by
        simp only [cutoffN]
        rw [if_neg hmc0, if_pos (by omega)]
      rw [hc]
      simp [joinBuf_cons, joinBuf_nil]
    · rw [if_neg hbr]
      have hlt : (text ++ t ++ [' ']).length < mc := Nat.not_le.mp hbr
      rw [ih _ hlt]
      have hc : cutoffN (mc - text.length) (t :: rest) =
          1 + cutoffN ((mc - text.length) - (t.length + 1)) rest := by
        simp only [cutoffN]
        rw [if_neg hmc0, if_neg (by omega)]
      have harith : mc - (text ++ t ++ [' ']).length =
          (mc - text.length) - (t.length + 1) := by omega
      rw [harith, hc, Nat.add_comm 1 _]
      simp [List.take_succ_cons, joinBuf_cons]

/-- For a positive budget, the digest is exactly the space-join of the first
`cutoffN` qualifying texts: the shortest whole-segment prefix whose running
buffer first reaches or exceeds `max_chars` (all of them if it never does). -/
theorem extract_eq_cutoff (segs : List Segment) (mc : Nat) (hmc : 1 ≤ mc) :
    extract_important_segments segs mc =
      spaceJoin ((qualifyingTexts segs).take (cutoffN mc (qualifyingTexts segs))) := by
  unfold extract_important_segments
  rw [go_eq_goQ mc segs [] (by simpa using hmc), goQ_spec mc _ [] (by simpa using hmc)]
  simp only [List.length_nil, Nat.sub_zero, List.nil_append]
  exact pyStrip_joinBuf _ (fun t ht => mem_qualifyingTexts ((List.take_sublist _ _).subset ht))

theorem cutoffN_le_length (mc : Nat) (ts : List PyStr) : cutoffN mc ts ≤ ts.length := by
  induction ts generalizing mc with
  | nil => simp [cutoffN]
  | cons t rest ih =>
    simp only [cutoffN, List.length_cons]
    split_ifs with h1 h2
    · omega
    · omega
    · have := ih (mc - (t.length + 1))
      omega

theorem cutoffN_of_lt (ts : List PyStr) : ∀ mc : Nat, bufLen ts < mc →
    cutoffN mc ts = ts.length := by
  induction ts with
  | nil => intro mc _; simp [cutoffN]
  | cons t rest ih =>
    intro mc h
    rw [bufLen_cons] at h
    simp only [cutoffN, List.length_cons]
    rw [if_neg (by omega), if_neg (by omega), ih _ (by omega)]
    omega

theorem cutoffN_append (ts ts2 : List PyStr) : ∀ mc : Nat, 1 ≤ mc → mc ≤ bufLen ts →
    cutoffN mc (ts ++ ts2) = cutoffN mc ts := by
  induction ts with
  | nil => intro mc h1 h2; rw [bufLen_nil] at h2; omega
  | cons t rest ih =>
    intro mc h1 h2
    rw [bufLen_cons] at h2
    simp only [List.cons_append, cutoffN, List.append_eq]
    by_cases ht : mc ≤ t.length + 1
    · rw [if_neg (by omega), if_pos ht, if_neg (by omega), if_pos ht]
    · rw [if_neg (by omega), if_neg ht, if_neg (by omega), if_neg ht,
        ih _ (by omega) (by omega)]

/-! ## Length overflow bound for the digest -/


theorem maxq_cons (s : Segment) (rest : List Segment) :
    maxq (s :: rest) =
      if qualifiesText (pyStrip s.text) = true
      then max ((pyStrip s.text).length + 1) (maxq rest)
      else maxq rest := by
  unfold maxq
  rw [qualifyingTexts_cons]
  by_cases hq : qualifiesText (pyStrip s.text) = true
  · rw [if_pos hq, if_pos hq]
    simp
  · rw [if_neg hq, if_neg hq]

theorem go_length_le (mc : Nat) : ∀ (segs : List Segment) (text : PyStr),
    (text.length < mc ∨ text = []) →
    (extract_important_segments_go mc segs text).length ≤ mc + maxq segs := by
  intro segs
  induction segs with
  | nil =>
    intro text h
    rw [go_nil]
    rcases h with h | rfl
    · omega
    · simp
  | cons s rest ih =>
    intro text h
    by_cases h6 : (pySplitWs (pyStrip s.text)).length < 6
    · rw [go_cons_skip _ _ _ _ h6, maxq_cons, if_neg (by simp [qualifiesText, h6])]
      exact ih text h
    · by_cases hk : IMPORTANT_KEYWORDS.any
          (fun k => containsSub k (pyLower (pyStrip s.text))) = true
      · have hq : qualifiesText (pyStrip s.text) = true := by
          simp [qualifiesText, h6, hk]
        rw [go_cons_qual _ _ _ _ h6 hk, maxq_cons, if_pos hq]
        have hmax1 : (pyStrip s.text).length + 1 ≤
            max ((pyStrip s.text).length + 1) (maxq rest) := le_max_left _ _
        have hmax2 : maxq rest ≤ max ((pyStrip s.text).length + 1) (maxq rest) :=
          le_max_right _ _
        have hlen2 : (text ++ pyStrip s.text ++ [' ']).length =
            text.length + (pyStrip s.text).length + 1 := by
          simp [List.length_append]
          omega
        by_cases hbr : mc ≤ (text ++ pyStrip s.text ++ [' ']).length
        · rw [if_pos hbr]
          rcases h with h | rfl
          · omega
          · simp only [List.length_nil] at hlen2
            omega
        · rw [if_neg hbr]
          have := ih (text ++ pyStrip s.text ++ [' ']) (Or.inl (Nat.not_le.mp hbr))
          omega
      · have hq : ¬ qualifiesText (pyStrip s.text) = true := by
          simp [qualifiesText, hk]
        rw [go_cons_noqual _ _ _ _ h6 (by simpa using hk), maxq_cons, if_neg hq]
        by_cases hbr : mc ≤ text.length
        · rw [if_pos hbr]
          rcases h with h | rfl
          · omega
          · simp
        · rw [if_neg hbr]
          exact ih text h

/-- The digest can overrun the budget only by the final appended segment:
its length is at most `max_chars` plus `maxq`. -/
theorem extract_length_le (segs : List Segment) (mc : Nat) :
    (extract_important_segments segs mc).length ≤ mc + maxq segs :=
  le_trans (pyStrip_length_le _) (go_length_le mc segs [] (Or.inr rfl))


theorem kf_go_cons_match (grab : PyStr → Int → PyStr → Bool) (vp : PyStr) (mf i : Nat)
    (s : Segment) (rest : List Segment) (frames : List Frame) (hkw : kwMatch s.text = true) :
    extract_key_frames_go grab vp mf i (s :: rest) frames =
      if mf ≤ (frames ++ [(⟨framePath i, s.text, s.start⟩ : Frame)]).length
      then frames ++ [(⟨framePath i, s.text, s.start⟩ : Frame)]
      else extract_key_frames_go grab vp mf (i + 1) rest
        (frames ++ [(⟨framePath i, s.text, s.start⟩ : Frame)]) := by
  simp only [extract_key_frames_go]
  rw [if_pos hkw]

theorem kf_go_cons_nomatch (grab : PyStr → Int → PyStr → Bool) (vp : PyStr) (mf i : Nat)
    (s : Segment) (rest : List Segment) (frames : List Frame) (hkw : kwMatch s.text = false) :
    extract_key_frames_go grab vp mf i (s :: rest) frames =
      if mf ≤ frames.length then frames
      else extract_key_frames_go grab vp mf (i + 1) rest frames := by
  have hkw3 : ¬ (kwMatch s.text = true) := by simp [hkw]
  simp only [extract_key_frames_go]
  rw [if_neg hkw3]

theorem allKeyFrames_cons_match (i : Nat) (s : Segment) (rest : List Segment)
    (hkw : kwMatch s.text = true) :
    allKeyFrames i (s :: rest) =
      ⟨framePath i, s.text, s.start⟩ :: allKeyFrames (i + 1) rest := by
  simp only [allKeyFrames]
  rw [if_pos hkw]

theorem allKeyFrames_cons_nomatch (i : Nat) (s : Segment) (rest : List Segment)
    (hkw : kwMatch s.text = false) :
    allKeyFrames i (s :: rest) = allKeyFrames (i + 1) rest := by
  simp only [allKeyFrames]
  rw [if_neg (by simp [hkw])]

theorem kf_go_spec (grab : PyStr → Int → PyStr → Bool) (vp : PyStr) (mf : Nat) :
    ∀ (segs : List Segment) (i : Nat) (frames : List Frame), frames.length < mf →
    extract_key_frames_go grab vp mf i segs frames =
      frames ++ (allKeyFrames i segs).take (mf - frames.length) := by
  intro segs
  induction segs with
  | nil => intro i frames _; simp [extract_key_frames_go, allKeyFrames]
  | cons s rest ih =>
    intro i frames h
    by_cases hkw : kwMatch s.text = true
    · rw [kf_go_cons_match _ _ _ _ _ _ _ hkw, allKeyFrames_cons_match _ _ _ hkw]
      have hlen : (frames ++ [(⟨framePath i, s.text, s.start⟩ : Frame)]).length =
          frames.length + 1 := by simp
      by_cases hbr : mf ≤ (frames ++ [(⟨framePath i, s.text, s.start⟩ : Frame)]).length
      · rw [if_pos hbr]
        have hm : mf - frames.length = 1 := by omega
        rw [hm]
        simp
      · rw [if_neg hbr]
        rw [ih (i + 1) _ (by omega)]
        have hm : mf - frames.length = (mf - (frames.length + 1)) + 1 := by omega
        rw [hm, List.take_succ_cons, hlen]
        simp
    · have hkw2 : kwMatch s.text = false := by simpa using hkw
      rw [kf_go_cons_nomatch _ _ _ _ _ _ _ hkw2, allKeyFrames_cons_nomatch _ _ _ hkw2,
        if_neg (by omega), ih (i + 1) _ h]

/-- For a positive `max_frames`, the Frame Selector yields exactly the first
`max_frames` keyword-matching segments' frames, in segment order. -/
theorem extract_key_frames_spec (grab : PyStr → Int → PyStr → Bool) (segs : List Segment)
    (vp : PyStr) (mf : Nat) (hmf : 1 ≤ mf) :
    extract_key_frames grab segs vp mf = (allKeyFrames 0 segs).take mf := by
  unfold extract_key_frames
  rw [kf_go_spec grab vp mf segs 0 [] (by simpa using hmf)]
  simp

/-- The Frame Selector's result never depends on the frame-grab outcomes:
the collaborator's success flag is discarded. -/
theorem kf_go_grab_irrel (grab grab2 : PyStr → Int → PyStr → Bool) (vp : PyStr) (mf : Nat) :
    ∀ (segs : List Segment) (i : Nat) (frames : List Frame),
    extract_key_frames_go grab vp mf i segs frames =
      extract_key_frames_go grab2 vp mf i segs frames := by
  intro segs
  induction segs with
  | nil => intro i frames; rfl
  | cons s rest ih =>
    intro i frames
    by_cases hkw : kwMatch s.text = true
    · rw [kf_go_cons_match _ _ _ _ _ _ _ hkw, kf_go_cons_match _ _ _ _ _ _ _ hkw]
      by_cases hbr : mf ≤ (frames ++ [(⟨framePath i, s.text, s.start⟩ : Frame)]).length
      · rw [if_pos hbr, if_pos hbr]
      · rw [if_neg hbr, if_neg hbr, ih]
    · have hkw2 : kwMatch s.text = false := by simpa using hkw
      rw [kf_go_cons_nomatch _ _ _ _ _ _ _ hkw2, kf_go_cons_nomatch _ _ _ _ _ _ _ hkw2]
      by_cases hbr : mf ≤ frames.length
      · rw [if_pos hbr, if_pos hbr]
      · rw [if_neg hbr, if_neg hbr, ih]


/-! ## Run lemmas for the Analyze pipeline -/

theorem analyze_acquire_err (c : Collab) (src : Source) (mf : Nat) (st0 : Session)
    (e : PyErr) (h : acquire c src = .error e) : analyze c src mf st0 = st0 := by
  unfold analyze
  rw [h]

theorem analyze_transcribe_err (c : Collab) (src : Source) (mf : Nat) (st0 : Session)
    (ap : PyStr) (vp : Option PyStr) (e : PyErr) (hacq : acquire c src = .ok (ap, vp))
    (ht : c.transcribe ap = .error e) : analyze c src mf st0 = st0 := by
  simp only [analyze, hacq, ht]

theorem analyze_create_err (c : Collab) (src : Source) (mf : Nat) (st0 : Session)
    (ap : PyStr) (vp : Option PyStr) (segs : List Segment) (e : PyErr)
    (hacq : acquire c src = .ok (ap, vp)) (ht : c.transcribe ap = .ok segs)
    (hcr : c.create (refined_transcript_prompt (extract_important_segments segs 3000)) =
      .error e) :
    analyze c src mf st0 =
      { st0 with segments := some segs,
                 raw_transcript := some (extract_important_segments segs 3000),
                 frames := some (framesFor c segs vp mf) } := by
  simp only [analyze, hacq, ht, hcr]
  cases vp <;> rfl

theorem analyze_create_ok (c : Collab) (src : Source) (mf : Nat) (st0 : Session)
    (ap : PyStr) (vp : Option PyStr) (segs : List Segment) (resp : Response)
    (hacq : acquire c src = .ok (ap, vp)) (ht : c.transcribe ap = .ok segs)
    (hcr : c.create (refined_transcript_prompt (extract_important_segments segs 3000)) =
      .ok resp) :
    analyze c src mf st0 =
      { st0 with segments := some segs,
                 raw_transcript := some (extract_important_segments segs 3000),
                 frames := some (framesFor c segs vp mf),
                 refined_transcript := some (generate_text resp) } := by
  simp only [analyze, hacq, ht, hcr]
  cases vp <;> rfl

theorem acquire_nonvideo (c : Collab) (src : Source) (h : nonVideoSource src = true) :
    (∃ e, acquire c src = .error e) ∨ (∃ ap, acquire c src = .ok (ap, none)) := by
  cases src with
  | youtube url =>
    cases hd : c.download_audio url with
    | error e => exact .inl ⟨e, by simp [acquire, hd]⟩
    | ok ap => exact .inr ⟨ap, by simp [acquire, hd]⟩
  | upload name =>
    have hv : ¬ (pyLower (splitext_ext name) ∈ VIDEO_EXTS) := by
      simpa [nonVideoSource] using h
    exact .inr ⟨c.save_upload name, by simp [acquire, hv]⟩

/-! ## Slot lemmas for the enrichment triggers -/

theorem setSlot_core_fields (tr : Trigger) (v : Option PyStr) (st : Session) :
    (setSlot tr v st).segments = st.segments ∧
    (setSlot tr v st).raw_transcript = st.raw_transcript ∧
    (setSlot tr v st).refined_transcript = st.refined_transcript ∧
    (setSlot tr v st).frames = st.frames := by
  cases tr <;> simp [setSlot]

theorem setSlot_other (tr tr2 : Trigger) (v : Option PyStr) (st : Session) (h : tr2 ≠ tr) :
    slotVal tr2 (setSlot tr v st) = slotVal tr2 st := by
  cases tr <;> cases tr2 <;> first
    | exact absurd rfl h
    | simp [setSlot, slotVal]

theorem setSlot_own (tr : Trigger) (v : Option PyStr) (st : Session) :
    slotVal tr (setSlot tr v st) = v := by
  cases tr <;> simp [setSlot, slotVal]

/-! ## Gateway fallback lemmas -/

theorem generate_text_fallback_find_some :
    ∀ (items : List RespItem) (item : RespItem),
    items.find? (fun it => it.type = OUTPUT_TEXT_TYPE) = some item →
    generate_text_fallback items = pyStrip item.text := by
  intro items
  induction items with
  | nil => intro item h; simp [List.find?] at h
  | cons a rest ih =>
    intro item h
    rw [List.find?_cons] at h
    by_cases ha : a.type = OUTPUT_TEXT_TYPE
    · have hpa : decide (a.type = OUTPUT_TEXT_TYPE) = true := by simp [ha]
      rw [hpa] at h
      simp at h
      subst h
      simp [generate_text_fallback, ha]
    · have hpa : decide (a.type = OUTPUT_TEXT_TYPE) = false := by simp [ha]
      rw [hpa] at h
      simp at h
      have hstep : generate_text_fallback (a :: rest) = generate_text_fallback rest := by
        simp [generate_text_fallback, ha]
      rw [hstep]
      exact ih item h

theorem generate_text_fallback_find_none :
    ∀ (items : List RespItem),
    items.find? (fun it => it.type = OUTPUT_TEXT_TYPE) = none →
    generate_text_fallback items = [] := by
  intro items
  induction items with
  | nil => intro _; rfl
  | cons a rest ih =>
    intro h
    rw [List.find?_cons] at h
    by_cases ha : a.type = OUTPUT_TEXT_TYPE
    · have hpa : decide (a.type = OUTPUT_TEXT_TYPE) = true := by simp [ha]
      rw [hpa] at h
      simp at h
    · have hpa : decide (a.type = OUTPUT_TEXT_TYPE) = false := by simp [ha]
      rw [hpa] at h
      have hstep : generate_text_fallback (a :: rest) = generate_text_fallback rest := by
        simp [generate_text_fallback, ha]
      rw [hstep]
      exact ih h

/-! ## Claim theorems -/

/-- C1 counterexample: the claim that the digest length never exceeds
`max_chars` is false — the length check runs only after a whole segment has
been appended, so with `max_chars = 10` a single 44-character qualifying
segment yields a digest of length 44. -/
theorem C1_counterexample :
    ¬ ((extract_important_segments [sampleLong] 10).length ≤ 10) := by
  decide

/-- C1 (amended): the digest always ends at a whole-segment boundary (it is
the space-join of a prefix of the qualifying trimmed texts — no segment text
is ever split), and its length can exceed `max_chars` only by the final
appended segment: it is at most `max_chars + maxq segments`, where `maxq` is
the longest qualifying trimmed text plus its separator. -/
theorem C1_digest_boundary_and_bound (segments : List Segment) (max_chars : Nat) :
    (∃ n, extract_important_segments segments max_chars =
        spaceJoin ((qualifyingTexts segments).take n)) ∧
    (extract_important_segments segments max_chars).length ≤ max_chars + maxq segments :=
  ⟨extract_eq_spaceJoin_take segments max_chars, extract_length_le segments max_chars⟩

/-- C2 counterexample: with `max_chars = 0` the cumulative buffer length
(0) already reaches the budget before any segment is appended, so the claim
demands an empty digest; but the code checks the budget only after appending,
so a single qualifying segment is still appended whole. -/
theorem C2_counterexample :
    ¬ (extract_important_segments [sampleQual] 0 =
        spaceJoin ((qualifyingTexts [sampleQual]).take
          (cutoffN 0 (qualifyingTexts [sampleQual])))) := by
  decide

/-- C2 (amended): for every positive `max_chars`, the digest consists of
exactly the first `cutoffN` whole qualifying segments — the shortest prefix
whose cumulative buffer length first reaches or exceeds `max_chars` (all of
them when it never does) — and once the budget is reached within the
sequence, appending further segments cannot change the digest (early exit:
segments after the cutoff are never evaluated). -/
theorem C2_early_exit_cutoff (segments : List Segment) (max_chars : Nat)
    (hmc : 1 ≤ max_chars) :
    extract_important_segments segments max_chars =
      spaceJoin ((qualifyingTexts segments).take
        (cutoffN max_chars (qualifyingTexts segments))) ∧
    (∀ extra : List Segment, max_chars ≤ bufLen (qualifyingTexts segments) →
      extract_important_segments (segments ++ extra) max_chars =
        extract_important_segments segments max_chars) := by
  refine ⟨extract_eq_cutoff segments max_chars hmc, ?_⟩
  intro extra hbuf
  rw [extract_eq_cutoff _ _ hmc, extract_eq_cutoff _ _ hmc, qualifyingTexts_append,
    cutoffN_append _ _ _ hmc hbuf,
    List.take_append_of_le_length (cutoffN_le_length _ _)]

/-- Witness for C2 (amended), at `max_chars = 10` with segments whose
qualifying buffer reaches the budget. -/
theorem C2_early_exit_cutoff_witness :
    (extract_important_segments [sampleQual, sampleNoKw, sampleLong] 10 =
      spaceJoin ((qualifyingTexts [sampleQual, sampleNoKw, sampleLong]).take
        (cutoffN 10 (qualifyingTexts [sampleQual, sampleNoKw, sampleLong])))) ∧
    extract_important_segments ([sampleQual, sampleNoKw, sampleLong] ++ [sampleShort]) 10 =
      extract_important_segments [sampleQual, sampleNoKw, sampleLong] 10 :=
  ⟨(C2_early_exit_cutoff [sampleQual, sampleNoKw, sampleLong] 10 (by decide)).1,
   (C2_early_exit_cutoff [sampleQual, sampleNoKw, sampleLong] 10 (by decide)).2
     [sampleShort] (by decide)⟩

/-- C3: as long as the qualifying buffer stays below `max_chars` (the cutoff
is never reached), a segment's trimmed text is included in the digest exactly
when it has at least 6 words and contains a vocabulary keyword
(`qualifyingTexts` is that filter), and the digest is the space-join of
exactly those trimmed texts, in input order. -/
theorem C3_digest_inclusion (segments : List Segment) (max_chars : Nat)
    (h : bufLen (qualifyingTexts segments) < max_chars) :
    extract_important_segments segments max_chars = spaceJoin (qualifyingTexts segments) := by
  have hmc : 1 ≤ max_chars := by
    have := Nat.zero_le (bufLen (qualifyingTexts segments))
    omega
  rw [extract_eq_cutoff _ _ hmc, cutoffN_of_lt _ _ h, List.take_length]

/-- Witness for C3 at the default budget 3000 on a mixed segment list. -/
theorem C3_digest_inclusion_witness :
    bufLen (qualifyingTexts [sampleQual, sampleNoKw, sampleShort]) < 3000 ∧
    extract_important_segments [sampleQual, sampleNoKw, sampleShort] 3000 =
      spaceJoin (qualifyingTexts [sampleQual, sampleNoKw, sampleShort]) :=
  ⟨by decide, C3_digest_inclusion [sampleQual, sampleNoKw, sampleShort] 3000 (by decide)⟩

/-- C5 counterexample: the claim that a KeyFrame is appended only when the
frame-grab succeeds is false — the grab's outcome is never inspected, so even
with an always-failing grab collaborator a frame is appended for the
keyword-matching segment. -/
theorem C5_counterexample :
    ¬ (extract_key_frames (fun _ _ _ => false) [sampleShort] "video.mp4".toList 3 = []) := by
  decide

/-- C5 (amended): a KeyFrame is appended for every keyword-matching segment
regardless of the frame-grab outcome — the Frame Selector's result does not
depend on the grab collaborator at all (its exit status is suppressed and
never checked), iteration always continues through the candidates, and the
stage is total, so no frame-grab failure can propagate to the caller. -/
theorem C5_grab_outcome_ignored (grab grab2 : PyStr → Int → PyStr → Bool)
    (segs : List Segment) (vp : PyStr) (mf : Nat) (hmf : 1 ≤ mf) :
    extract_key_frames grab segs vp mf = extract_key_frames grab2 segs vp mf ∧
    extract_key_frames grab segs vp mf = (allKeyFrames 0 segs).take mf := by
  constructor
  · unfold extract_key_frames
    exact kf_go_grab_irrel grab grab2 vp mf segs 0 []
  · exact extract_key_frames_spec grab segs vp mf hmf

/-- Witness for C5 (amended): with an always-failing and an always-succeeding
grab collaborator the Frame Selector returns the same frames. -/
theorem C5_grab_outcome_ignored_witness :
    extract_key_frames (fun _ _ _ => false) [sampleShort] "video.mp4".toList 3 =
      extract_key_frames (fun _ _ _ => true) [sampleShort] "video.mp4".toList 3 ∧
    extract_key_frames (fun _ _ _ => false) [sampleShort] "video.mp4".toList 3 =
      (allKeyFrames 0 [sampleShort]).take 3 :=
  C5_grab_outcome_ignored (fun _ _ _ => false) (fun _ _ _ => true) [sampleShort]
    "video.mp4".toList 3 (by decide)

/-- C6 counterexample: the bound fails at `max_frames = 0` — the length check
runs only after appending, so a keyword-matching first segment still yields
one frame. -/
theorem C6_counterexample :
    ¬ ((extract_key_frames (fun _ _ _ => true) [sampleShort] "video.mp4".toList 0).length
        ≤ 0) := by
  decide

/-- C6 (amended): for every positive `max_frames` the Frame Selector returns
at most `max_frames` KeyFrames — exactly the first keyword-matching segments'
frames, in segment order — and for a remote link or an audio-only upload the
Analyze run stores `frames = []` (or leaves the field untouched when the run
fails before the frames stage): the Frame Selector is not in play for such
sources. -/
theorem C6_frame_bound_and_gate (grab : PyStr → Int → PyStr → Bool) (segs : List Segment)
    (vp : PyStr) (c : Collab) (src : Source) (mf : Nat) (st0 : Session)
    (hmf : 1 ≤ mf) (hsrc : nonVideoSource src = true) :
    (extract_key_frames grab segs vp mf).length ≤ mf ∧
    extract_key_frames grab segs vp mf = (allKeyFrames 0 segs).take mf ∧
    ((analyze c src mf st0).frames = some [] ∨ (analyze c src mf st0).frames = st0.frames) := by
  refine ⟨?_, extract_key_frames_spec grab segs vp mf hmf, ?_⟩
  · rw [extract_key_frames_spec grab segs vp mf hmf, List.length_take]
    exact min_le_left _ _
  · rcases acquire_nonvideo c src hsrc with ⟨e, he⟩ | ⟨ap, hap⟩
    · right
      rw [analyze_acquire_err c src mf st0 e he]
    · cases ht : c.transcribe ap with
      | error e2 =>
        right
        rw [analyze_transcribe_err c src mf st0 ap none e2 hap ht]
      | ok segs2 =>
        cases hcr : c.create
            (refined_transcript_prompt (extract_important_segments segs2 3000)) with
        | error e3 =>
          left
          rw [analyze_create_err c src mf st0 ap none segs2 e3 hap ht hcr]
          rfl
        | ok resp =>
          left
          rw [analyze_create_ok c src mf st0 ap none segs2 resp hap ht hcr]
          rfl

/-- Witness for C6 (amended): one frame budget, a YouTube source, and a
segment list with two keyword matches. -/
theorem C6_frame_bound_and_gate_witness :
    (extract_key_frames (fun _ _ _ => true) [sampleShort, sampleQual]
      "clip.mp4".toList 1).length ≤ 1 ∧
    extract_key_frames (fun _ _ _ => true) [sampleShort, sampleQual] "clip.mp4".toList 1 =
      (allKeyFrames 0 [sampleShort, sampleQual]).take 1 ∧
    ((analyze cOk (.youtube "u".toList) 1 emptySession).frames = some [] ∨
      (analyze cOk (.youtube "u".toList) 1 emptySession).frames = emptySession.frames) :=
  C6_frame_bound_and_gate (fun _ _ _ => true) [sampleShort, sampleQual] "clip.mp4".toList
    cOk (.youtube "u".toList) 1 emptySession (by decide) (by decide)

/-- C7 counterexample: the gateway does not return the primary field
verbatim — a truthy primary field with surrounding whitespace is stripped
before being returned. -/
theorem C7_counterexample :
    ¬ (generate_text respPad = " hi ".toList) := by
  decide

/-- C7 (amended): the gateway returns the *stripped* primary field when it is
present and non-empty; otherwise it falls back to the structured-output list,
returning the *stripped* text of its first `"output_text"`-typed entry; and
when no such entry exists it returns the empty string instead of raising. -/
theorem C7_gateway_extraction (resp : Response) :
    (∀ s, resp.output_text = some s → s.isEmpty = false → generate_text resp = pyStrip s) ∧
    ((resp.output_text = none ∨ resp.output_text = some []) →
      generate_text resp = generate_text_fallback resp.output) ∧
    (∀ item, resp.output.find? (fun it => it.type = OUTPUT_TEXT_TYPE) = some item →
      generate_text_fallback resp.output = pyStrip item.text) ∧
    (resp.output.find? (fun it => it.type = OUTPUT_TEXT_TYPE) = none →
      generate_text_fallback resp.output = []) := by
  refine ⟨?_, ?_, fun item h => generate_text_fallback_find_some _ item h,
    fun h => generate_text_fallback_find_none _ h⟩
  · intro s hs he
    simp only [generate_text, hs]
    rw [if_neg (by simp [he])]
  · intro hcase
    rcases hcase with hnone | hemp
    · simp only [generate_text, hnone]
    · simp only [generate_text, hemp]
      simp

/-- Witness for C7 (amended): a padded primary field is stripped, and a
padded fallback entry is found and stripped. -/
theorem C7_gateway_extraction_witness :
    generate_text respPad = pyStrip " hi ".toList ∧
    generate_text_fallback [itemA] = pyStrip " fb ".toList :=
  ⟨(C7_gateway_extraction respPad).1 " hi ".toList rfl (by decide),
   (C7_gateway_extraction ⟨none, [itemA]⟩).2.2.1 itemA (by decide)⟩

/-- C4 counterexample: the claim that any exception between acquisition and
enrichment leaves every previously stored Session field unchanged is false —
when the enrichment backend raises, the already-committed `segments`,
`raw_transcript` and `frames` assignments persist, so the session differs
from its pre-run state. -/
theorem C4_counterexample :
    ¬ (analyze cGenFail (.youtube "url".toList) 3 emptySession = emptySession) := by
  decide

/-- C4 (amended): commits are stage-by-stage, not atomic.  An exception
during acquisition or during transcription leaves the Session entirely
unmodified (in particular the restricted-remote-link scenario); but an
exception during enrichment leaves the freshly committed `segments`, digest
(`raw_transcript`) and `frames` in place, while `refined_transcript` and
every enrichment slot keep their pre-run values. -/
theorem C4_stagewise_commits (c : Collab) (src : Source) (mf : Nat) (st0 : Session) :
    (∀ e, acquire c src = .error e → analyze c src mf st0 = st0) ∧
    (∀ ap vp e, acquire c src = .ok (ap, vp) → c.transcribe ap = .error e →
      analyze c src mf st0 = st0) ∧
    (∀ ap vp segs e, acquire c src = .ok (ap, vp) → c.transcribe ap = .ok segs →
      c.create (refined_transcript_prompt (extract_important_segments segs 3000)) =
        .error e →
      (analyze c src mf st0).segments = some segs ∧
      (analyze c src mf st0).raw_transcript =
        some (extract_important_segments segs 3000) ∧
      (analyze c src mf st0).frames = some (framesFor c segs vp mf) ∧
      (analyze c src mf st0).refined_transcript = st0.refined_transcript ∧
      (analyze c src mf st0).takeaways = st0.takeaways ∧
      (analyze c src mf st0).mistakes = st0.mistakes ∧
      (analyze c src mf st0).application = st0.application ∧
      (analyze c src mf st0).twitter_content = st0.twitter_content ∧
      (analyze c src mf st0).linkedin_content = st0.linkedin_content ∧
      (analyze c src mf st0).reel_content = st0.reel_content) := by
  refine ⟨fun e h => analyze_acquire_err c src mf st0 e h,
    fun ap vp e hacq ht => analyze_transcribe_err c src mf st0 ap vp e hacq ht,
    fun ap vp segs e hacq ht hcr => ?_⟩
  rw [analyze_create_err c src mf st0 ap vp segs e hacq ht hcr]
  exact ⟨rfl, rfl, rfl, rfl, rfl, rfl, rfl, rfl, rfl, rfl⟩

/-- Witness for C4 (amended): a restricted link leaves the session untouched;
a failing enrichment backend still commits the segments but no refined
transcript. -/
theorem C4_stagewise_commits_witness :
    analyze cAcqFail (.youtube "url".toList) 3 emptySession = emptySession ∧
    (analyze cGenFail (.youtube "url".toList) 3 emptySession).segments =
      some [sampleQual] ∧
    (analyze cGenFail (.youtube "url".toList) 3 emptySession).refined_transcript = none :=
  ⟨(C4_stagewise_commits cAcqFail (.youtube "url".toList) 3 emptySession).1
      ⟨"restricted".toList⟩ rfl,
   ((C4_stagewise_commits cGenFail (.youtube "url".toList) 3 emptySession).2.2
      "audio.mp3".toList none [sampleQual] ⟨"boom".toList⟩
      rfl rfl rfl).1,
   ((C4_stagewise_commits cGenFail (.youtube "url".toList) 3 emptySession).2.2
      "audio.mp3".toList none [sampleQual] ⟨"boom".toList⟩
      rfl rfl rfl).2.2.2.1⟩

/-- C8: an enrichment trigger is a no-op unless `refined_transcript` is
populated (truthy), and when it runs it overwrites exactly its own slot:
`segments`, `raw_transcript`, `refined_transcript`, `frames` and every other
enrichment slot are left unchanged, while on backend success its own slot
receives the generated text. -/
theorem C8_trigger_guard_and_isolation (c : Collab) (tr : Trigger) (st : Session) :
    ((st.refined_transcript = none ∨ st.refined_transcript = some []) →
      runTrigger c tr st = st) ∧
    (runTrigger c tr st).segments = st.segments ∧
    (runTrigger c tr st).raw_transcript = st.raw_transcript ∧
    (runTrigger c tr st).refined_transcript = st.refined_transcript ∧
    (runTrigger c tr st).frames = st.frames ∧
    (∀ tr2, tr2 ≠ tr → slotVal tr2 (runTrigger c tr st) = slotVal tr2 st) ∧
    (∀ r resp, st.refined_transcript = some r → r.isEmpty = false →
      c.create (triggerPrompt tr r) = .ok resp →
      slotVal tr (runTrigger c tr st) = some (generate_text resp)) := by
  have hrun : runTrigger c tr st = st ∨
      ∃ v, runTrigger c tr st = setSlot tr (some v) st := by
    cases hrt : st.refined_transcript with
    | none => exact .inl (by simp only [runTrigger, hrt])
    | some r =>
      by_cases hemp : r.isEmpty = true
      · exact .inl (by simp only [runTrigger, hrt]; rw [if_pos hemp])
      · cases hcr : c.create (triggerPrompt tr r) with
        | error e =>
          exact .inl (by simp only [runTrigger, hrt]; rw [if_neg hemp, hcr])
        | ok resp =>
          exact .inr ⟨generate_text resp,
            by simp only [runTrigger, hrt]; rw [if_neg hemp, hcr]⟩
  have hlast : ∀ r resp, st.refined_transcript = some r → r.isEmpty = false →
      c.create (triggerPrompt tr r) = .ok resp →
      runTrigger c tr st = setSlot tr (some (generate_text resp)) st := by
    intro r resp hr hemp hcr
    simp only [runTrigger, hr]
    rw [if_neg (by simp [hemp]), hcr]
  have hguard : (st.refined_transcript = none ∨ st.refined_transcript = some []) →
      runTrigger c tr st = st := by
    intro hc
    rcases hc with h | h
    · simp only [runTrigger, h]
    · simp only [runTrigger, h]
      simp
  have hfields : (runTrigger c tr st).segments = st.segments ∧
      (runTrigger c tr st).raw_transcript = st.raw_transcript ∧
      (runTrigger c tr st).refined_transcript = st.refined_transcript ∧
      (runTrigger c tr st).frames = st.frames ∧
      (∀ tr2, tr2 ≠ tr → slotVal tr2 (runTrigger c tr st) = slotVal tr2 st) := by
    rcases hrun with heq | ⟨v, heq⟩
    · rw [heq]
      exact ⟨rfl, rfl, rfl, rfl, fun tr2 _ => rfl⟩
    · rw [heq]
      obtain ⟨h1, h2, h3, h4⟩ := setSlot_core_fields tr (some v) st
      exact ⟨h1, h2, h3, h4, fun tr2 hne => setSlot_other tr tr2 _ st hne⟩
  refine ⟨hguard, hfields.1, hfields.2.1, hfields.2.2.1, hfields.2.2.2.1,
    hfields.2.2.2.2, fun r resp hr hemp hcr => ?_⟩
  rw [hlast r resp hr hemp hcr, setSlot_own]

/-- Witness for C8: on a populated session the takeaways trigger leaves the
core fields and the other slots alone and fills its own slot. -/
theorem C8_trigger_guard_and_isolation_witness :
    (runTrigger cOk Trigger.takeaways stRefined).segments = stRefined.segments ∧
    slotVal Trigger.mistakes (runTrigger cOk Trigger.takeaways stRefined) =
      slotVal Trigger.mistakes stRefined ∧
    slotVal Trigger.takeaways (runTrigger cOk Trigger.takeaways stRefined) =
      some (generate_text respOk) :=
  ⟨(C8_trigger_guard_and_isolation cOk Trigger.takeaways stRefined).2.1,
   (C8_trigger_guard_and_isolation cOk Trigger.takeaways stRefined).2.2.2.2.2.1
     Trigger.mistakes (by decide),
   (C8_trigger_guard_and_isolation cOk Trigger.takeaways stRefined).2.2.2.2.2.2
     "refined text".toList respOk rfl (by decide) rfl⟩

/-- C9: the Importance Filter is deterministic — equal segment sequences and
budgets yield the identical digest string — and order-preserving: the digest
is the space-join of a selection of the trimmed segment texts that is a
sublist (same relative order) of the input sequence's trimmed texts. -/
theorem C9_deterministic_order_preserving (segs1 segs2 : List Segment) (mc1 mc2 : Nat)
    (h1 : segs1 = segs2) (h2 : mc1 = mc2) :
    extract_important_segments segs1 mc1 = extract_important_segments segs2 mc2 ∧
    ∃ sel : List PyStr,
      sel.Sublist (segs1.map (fun s => pyStrip s.text)) ∧
      extract_important_segments segs1 mc1 = spaceJoin sel := by
  subst h1
  subst h2
  refine ⟨rfl, ?_⟩
  obtain ⟨n, hn⟩ := extract_eq_spaceJoin_take segs1 mc1
  refine ⟨(qualifyingTexts segs1).take n, ?_, hn⟩
  exact (List.take_sublist _ _).trans (List.filter_sublist _)

/-- Witness for C9 on a three-segment input. -/
theorem C9_deterministic_order_preserving_witness :
    extract_important_segments [sampleQual, sampleNoKw, sampleLong] 3000 =
      extract_important_segments [sampleQual, sampleNoKw, sampleLong] 3000 ∧
    ∃ sel : List PyStr,
      sel.Sublist ([sampleQual, sampleNoKw, sampleLong].map (fun s => pyStrip s.text)) ∧
      extract_important_segments [sampleQual, sampleNoKw, sampleLong] 3000 = spaceJoin sel :=
  C9_deterministic_order_preserving [sampleQual, sampleNoKw, sampleLong]
    [sampleQual, sampleNoKw, sampleLong] 3000 3000 rfl rfl

/-- C10: the Frame Selector applies no minimum word count — the two-word
segment "important step" is excluded from the digest by the 6-word rule yet
still yields a KeyFrame, so the frame-bearing segments are not a subset of
the digest-contributing ones. -/
theorem C10_frames_without_word_count :
    extract_key_frames (fun _ _ _ => true) [sampleShort] "video.mp4".toList 3 =
      [(⟨"frame_0.jpg".toList, "important step".toList, 5⟩ : Frame)] ∧
    extract_important_segments [sampleShort] 3000 = [] := by
  constructor
  · decide
  · decide

end Repurposer
